import Mathlib

/-!
# Verification of the `StreamRelay` Durable Object (stream-relay-cf-workers)

Shallow embedding of `src/durable_objects/StreamRelay.ts` (the per-stream
relay actor).  The class state becomes the structure `RelayState`; each
method becomes a Lean function on `RelayState`; the asynchronous event
environment (client joins/leaves, upstream socket open/message/close/error,
timer firings) becomes the `Event` type and the `step` function, and the
reachable states of one `RelayInstance` are the results of folding `step`
over an event list starting from the constructor's state.

Modelling conventions, faithful to the TypeScript source:
* JS `Map<string, WebSocket>` becomes an insertion-ordered association list
  with unique keys (`Map.set` replaces in place, `Map.delete` removes the
  binding, iteration is in insertion order and tolerates deletion of the
  element currently visited).
* A client transport is modelled by `ClientConn`: `sendFails` says whether
  `send` currently throws (a dead peer socket), `received` logs the frames
  successfully delivered to this client, in order.
* `setTimeout` / `setInterval` handles are modelled by `Option Nat` fields
  holding fresh ids from the counter `nextTimer`; `liveReconnect` is the
  multiset of reconnect timeouts that have been created and neither
  cancelled nor fired, so "two live reconnect timers" is expressible.
* The upstream `WebSocket` is `sfuSocket : Option SocketPhase`.  The close
  handler of the source never clears `this.sfuConnection`, so a socket that
  delivered its close event stays in the slot with phase `closed`.
  `zombies` counts superseded sockets (closed by `handleClientDisconnect`
  or replaced by a later `connectToSFU`) whose `close`/`error` listeners
  are still registered and may still fire: the source never removes those
  listeners nor guards them with an identity check.
* Inbound upstream payloads are binary media frames (`binaryType` is set to
  `"arraybuffer"`), modelled as `List Nat` byte lists.
-/

/-- Data sent over a viewer websocket: a binary media frame or a text frame. -/
inductive WireData where
  | bin (bytes : List Nat)
  | text (s : String)
deriving DecidableEq, Repr

/-- One accepted viewer transport: whether `send` throws, and the log of
frames delivered so far (in order). -/
structure ClientConn where
  sendFails : Bool
  received : List WireData
deriving DecidableEq, Repr

/-- Lifecycle phase of an upstream `WebSocket` object. -/
inductive SocketPhase where
  | connecting
  | opened
  | closed
deriving DecidableEq, Repr

/-- The fields of the `StreamRelay` class, plus the bookkeeping needed to
model its timer and socket environment (`liveReconnect`, `nextTimer`,
`zombies`, the clock `now`). -/
structure RelayState where
  streamId : String
  stateIdStr : String
  sfuUrl : String
  clients : List (String × ClientConn)
  codecDescription : Option (List Nat)
  reconnectTimeout : Option Nat
  liveReconnect : List Nat
  heartbeatInterval : Option Nat
  isConnectedToSFU : Bool
  sfuSocket : Option SocketPhase
  currentWsUrl : Option String
  now : Nat
  nextTimer : Nat
  zombies : Nat
deriving DecidableEq, Repr

/-- JS `x || d` for a possibly-absent string: falls back when `x` is
`undefined` or the empty string (the only falsy string). -/
def jsOrString (x : Option String) (d : String) : String :=
  match x with
  | some s => if s = "" then d else s
  | none => d

/-- JS `String.prototype.split(":")` on the character list of a string. -/
def splitColon : List Char → List (List Char)
  | [] => [[]]
  | c :: rest =>
    if c = ':' then [] :: splitColon rest
    else
      match splitColon rest with
      | h :: t => (c :: h) :: t
      | [] => [[c]]

/-- `state.id.name?.split(":")[1] || "test_stream"` from the constructor. -/
def streamIdOf (name : Option String) : String :=
  match name with
  | none => "test_stream"
  | some n =>
    match (splitColon n.data).get? 1 with
    | some seg => if seg = [] then "test_stream" else String.mk seg
    | none => "test_stream"

/-- The constructor of `StreamRelay`: extracts the stream id from the
Durable Object name and resolves the upstream base URL from the
environment (`env.SFU_SERVER_URL || "ws://127.0.0.1:5500"`). -/
def initRelay (name : Option String) (sfuServerUrl : Option String)
    (stateIdStr : String) (now : Nat) : RelayState :=
  { streamId := streamIdOf name
    stateIdStr := stateIdStr
    sfuUrl := jsOrString sfuServerUrl "ws://127.0.0.1:5500"
    clients := []
    codecDescription := none
    reconnectTimeout := none
    liveReconnect := []
    heartbeatInterval := none
    isConnectedToSFU := false
    sfuSocket := none
    currentWsUrl := none
    now := now
    nextTimer := 0
    zombies := 0 }

/-- JS `Map.set`: replace the binding in place if the key is present,
otherwise append it. -/
def clientsSet (cs : List (String × ClientConn)) (id : String) (c : ClientConn) :
    List (String × ClientConn) :=
  if cs.any (fun p => p.1 == id) then
    cs.map (fun p => if p.1 == id then (id, c) else p)
  else cs ++ [(id, c)]

/-- A successful `client.send(d)`: append `d` to the receive log of the
client keyed by `id` (no effect if the id is not registered). -/
def deliverTo (s : RelayState) (id : String) (d : WireData) : RelayState :=
  { s with clients := (s.clients.map
      (fun p => if p.1 == id then (p.1, { p.2 with received := p.2.received ++ [d] }) else p)) }

/-- Whether an upstream socket object is still connecting or open. -/
def socketAlive : Option SocketPhase → Bool
  | some .connecting => true
  | some .opened => true
  | _ => false

/-- `handleClientDisconnect(clientId)`: remove the client; if the registry
is now empty, close the upstream connection (its close listener stays
registered, hence a new zombie when it was alive), reset the connected
flag and cancel both timers. -/
def handleClientDisconnect (s : RelayState) (id : String) : RelayState :=
  let s1 := { s with clients := s.clients.filter (fun p => p.1 != id) }
  if s1.clients.length = 0 then
    { s1 with
      zombies := s1.zombies + (if socketAlive s1.sfuSocket then 1 else 0)
      sfuSocket := none
      isConnectedToSFU := false
      liveReconnect :=
        match s1.reconnectTimeout with
        | some h => s1.liveReconnect.erase h
        | none => s1.liveReconnect
      reconnectTimeout := none
      heartbeatInterval := none }
  else s1

/-- Map each of `0`-`9` to its digit character (used with `% 10`). -/
def digitOf : Nat → Char
  | 0 => '0'
  | 1 => '1'
  | 2 => '2'
  | 3 => '3'
  | 4 => '4'
  | 5 => '5'
  | 6 => '6'
  | 7 => '7'
  | 8 => '8'
  | _ => '9'

/-- Two-digit zero-padded decimal, as in `Date.prototype.toISOString`. -/
def pad2 (n : Nat) : List Char :=
  [digitOf (n / 10 % 10), digitOf (n % 10)]

/-- Three-digit zero-padded decimal (milliseconds field). -/
def pad3 (n : Nat) : List Char :=
  [digitOf (n / 100 % 10), digitOf (n / 10 % 10), digitOf (n % 10)]

/-- Four-digit zero-padded decimal (year field). -/
def pad4 (n : Nat) : List Char :=
  [digitOf (n / 1000 % 10), digitOf (n / 100 % 10), digitOf (n / 10 % 10), digitOf (n % 10)]

/-- Proleptic-Gregorian civil date from days since 1970-01-01
(the standard era-based algorithm used by date libraries). -/
def civilFromDays (days : Nat) : Nat × Nat × Nat :=
  let z := days + 719468
  let era := z / 146097
  let doe := z % 146097
  let yoe := (doe - doe / 1460 + doe / 36524 - doe / 146096) / 365
  let y := yoe + era * 400
  let doy := doe - (365 * yoe + yoe / 4 - yoe / 100)
  let mp := (5 * doy + 2) / 153
  let d := doy - (153 * mp + 2) / 5 + 1
  let m := if mp < 10 then mp + 3 else mp - 9
  (if m ≤ 2 then y + 1 else y, m, d)

/-- `new Date(t).toISOString()` for an epoch-milliseconds clock reading `t`
(standard `YYYY-MM-DDTHH:mm:ss.sssZ` form; the source only ever formats
current wall-clock times, whose years fit in four digits). -/
def toISOString (t : Nat) : String :=
  let ms := t % 1000
  let ss := t / 1000 % 60
  let mm := t / 60000 % 60
  let hh := t / 3600000 % 24
  let ymd := civilFromDays (t / 86400000)
  String.mk (pad4 ymd.1 ++ '-' :: pad2 ymd.2.1 ++ '-' :: pad2 ymd.2.2 ++
    'T' :: pad2 hh ++ ':' :: pad2 mm ++ ':' :: pad2 ss ++ '.' :: pad3 ms ++ ['Z'])

/-- Recognizer for the 24-character ISO-8601 timestamp shape
`YYYY-MM-DDTHH:mm:ss.sssZ`. -/
def isISO8601 (s : String) : Bool :=
  match s.data with
  | [y1, y2, y3, y4, '-', m1, m2, '-', d1, d2, 'T',
     h1, h2, ':', n1, n2, ':', s1, s2, '.', f1, f2, f3, 'Z'] =>
    y1.isDigit && y2.isDigit && y3.isDigit && y4.isDigit &&
    m1.isDigit && m2.isDigit && d1.isDigit && d2.isDigit &&
    h1.isDigit && h2.isDigit && n1.isDigit && n2.isDigit &&
    s1.isDigit && s2.isDigit && f1.isDigit && f2.isDigit && f3.isDigit
  | _ => false

/-- The status record the relay serializes for clients (`JSON.stringify`
argument in `sendStatusToClient` and `broadcastStatusToClients`): exactly
the fields `type`, `message`, `timestamp`, `isConnectedToSFU`. -/
structure StatusMessage where
  type : String
  message : String
  timestamp : String
  isConnectedToSFU : Bool
deriving DecidableEq, Repr

/-- JSON escaping of the characters `"` and `\` inside a string value
(the source's payloads contain neither control characters nor exotica). -/
def jsonEscapeChar (c : Char) : List Char :=
  if c = '"' then ['\\', '"']
  else if c = '\\' then ['\\', '\\']
  else [c]

/-- JSON string-value escaping. -/
def jsonEscape (s : String) : String :=
  String.mk (s.data.flatMap jsonEscapeChar)

/-- `JSON.stringify` of a status record. -/
def jsonOfStatus (m : StatusMessage) : String :=
  "\x7b\"type\":\"" ++ jsonEscape m.type ++
  "\",\"message\":\"" ++ jsonEscape m.message ++
  "\",\"timestamp\":\"" ++ jsonEscape m.timestamp ++
  "\",\"isConnectedToSFU\":" ++ (if m.isConnectedToSFU then "true" else "false") ++ "\x7d"

/-- The serialized status text a state produces for message `msg`
(timestamp from the current clock, flag from the current state). -/
def statusText (s : RelayState) (msg : String) : String :=
  jsonOfStatus
    { type := "status", message := msg, timestamp := toISOString s.now,
      isConnectedToSFU := s.isConnectedToSFU }

/-- `sendStatusToClient(clientId, message)`: look the client up, try to send
the serialized status; a throwing send is caught and treated as a
disconnect of that client. -/
def sendStatusToClient (s : RelayState) (id : String) (msg : String) : RelayState :=
  match s.clients.find? (fun p => p.1 == id) with
  | none => s
  | some p =>
    if p.2.sendFails then handleClientDisconnect s id
    else deliverTo s id (.text (statusText s msg))

/-- The shared send loop of `fanOutToClients` and `broadcastStatusToClients`:
iterate the registry snapshot in insertion order; a throwing send is caught
and only disconnects that one client (the JS `Map` iterator tolerates
deletion of the entry being visited). -/
def sendLoop (s : RelayState) (snapshot : List (String × ClientConn)) (d : WireData) :
    RelayState :=
  match snapshot with
  | [] => s
  | (id, c) :: rest =>
    if c.sendFails then sendLoop (handleClientDisconnect s id) rest d
    else sendLoop (deliverTo s id d) rest d

/-- `broadcastStatusToClients(message)`: serialize once, then send to every
registered client. -/
def broadcastStatusToClients (s : RelayState) (msg : String) : RelayState :=
  sendLoop s s.clients (.text (statusText s msg))

/-- `fanOutToClients(data)`: forward one upstream payload to every
registered client. -/
def fanOutToClients (s : RelayState) (d : WireData) : RelayState :=
  sendLoop s s.clients d

/-- `scheduleReconnect()`: arm the 5-second reconnect timeout only if at
least one client is registered and no timeout is already pending. -/
def scheduleReconnect (s : RelayState) : RelayState :=
  if 0 < s.clients.length ∧ s.reconnectTimeout = none then
    { s with reconnectTimeout := some s.nextTimer
             liveReconnect := s.liveReconnect ++ [s.nextTimer]
             nextTimer := s.nextTimer + 1 }
  else s

/-- The `clearTimeout` prologue of `connectToSFU`. -/
def clearReconnect (s : RelayState) : RelayState :=
  match s.reconnectTimeout with
  | some h => { s with reconnectTimeout := none, liveReconnect := s.liveReconnect.erase h }
  | none => s

/-- The upstream URL `connectToSFU` dials: `` `${this.sfuUrl}/consume/${this.streamId}` ``. -/
def wsUrlOf (s : RelayState) : String :=
  s.sfuUrl ++ "/consume/" ++ s.streamId

/-- `connectToSFU()`: clear any pending reconnect timeout, record the target
URL, then construct the upstream `WebSocket`.  `ctorOk` says whether the
constructor returns normally (a new connecting socket replaces the slot; a
replaced live socket keeps its listeners, hence a zombie) or throws (the
`catch` block: clear the flag, broadcast a failure status, reschedule). -/
def connectToSFU (s : RelayState) (ctorOk : Bool) : RelayState :=
  let s1 := clearReconnect s
  let s2 := { s1 with currentWsUrl := some (wsUrlOf s1) }
  if ctorOk then
    { s2 with zombies := s2.zombies + (if socketAlive s2.sfuSocket then 1 else 0)
              sfuSocket := some .connecting }
  else
    scheduleReconnect
      (broadcastStatusToClients { s2 with isConnectedToSFU := false }
        "Failed to connect to SFU")

/-- `startHeartbeat()`: clear any existing interval and arm a fresh one
(fresh handle id from the timer counter). -/
def startHeartbeat (s : RelayState) : RelayState :=
  { s with heartbeatInterval := some s.nextTimer, nextTimer := s.nextTimer + 1 }

/-- The initial status text sent to a freshly accepted viewer. -/
def initialStatusMsg (s : RelayState) : String :=
  "Connected to stream relay, state: " ++ s.stateIdStr ++ ". Waiting for media..."

/-- The websocket-upgrade branch of `fetch`: register the viewer, send it
the initial status (a throwing send disconnects it again), then either
connect upstream and start the heartbeat (registry size is exactly 1 after
the status send) or, when already connected with a cached codec
description, send that one cached frame directly to the new viewer. -/
def acceptViewer (s : RelayState) (id : String) (doaFails ctorOk : Bool) : RelayState :=
  let s1 := { s with clients := clientsSet s.clients id { sendFails := doaFails, received := [] } }
  let s2 := sendStatusToClient s1 id (initialStatusMsg s1)
  if s2.clients.length = 1 then
    startHeartbeat (connectToSFU s2 ctorOk)
  else
    if s2.isConnectedToSFU then
      match s2.codecDescription with
      | some c =>
        (match s2.clients.find? (fun p => p.1 == id) with
         | some p => if p.2.sendFails then s2 else deliverTo s2 id (.bin c)
         | none => s2)
      | none => s2
    else s2

/-- The upstream `message` listener: cache the first payload as the codec
description (broadcasting a status when doing so), then fan the payload
out to all clients. -/
def handleSfuMessage (s : RelayState) (bytes : List Nat) : RelayState :=
  let s1 :=
    if s.codecDescription = none then
      broadcastStatusToClients { s with codecDescription := some bytes }
        "Received codec information from SFU"
    else s
  fanOutToClients s1 (.bin bytes)

/-- JS template-literal rendering of a nullable string (`null` prints as
the text `null`). -/
def showOptString : Option String → String
  | some s => s
  | none => "null"

/-- The text chosen by the heartbeat interval callback. -/
def heartbeatMsg (s : RelayState) : String :=
  if s.isConnectedToSFU then "Connected to SFU, waiting for stream data..."
  else "Not connected to SFU: " ++ showOptString s.currentWsUrl ++ ", attempting to connect..."

/-- The shared body of the upstream `close`/`error` listeners: clear the
connected flag, broadcast a status, schedule a reconnect. -/
def upstreamDownHandler (s : RelayState) (msg : String) : RelayState :=
  scheduleReconnect
    (broadcastStatusToClients { s with isConnectedToSFU := false } msg)

/-- The asynchronous events one `RelayInstance` reacts to.  `join` carries
whether the accepted transport is already dead (its sends throw) and
whether the upstream socket constructor returns normally if invoked;
`clientDies` marks a registered transport as broken before its close event
(`leave`) is delivered; `staleClose` is a close/error event from a
superseded upstream socket whose listeners are still registered. -/
inductive Event where
  | join (id : String) (doaFails ctorOk : Bool)
  | leave (id : String)
  | clientDies (id : String)
  | sfuOpen
  | sfuMessage (bytes : List Nat)
  | sfuClose
  | sfuError
  | staleClose
  | timerFire (ctorOk : Bool)
  | heartbeatTick
deriving DecidableEq, Repr

/-- One event-handler dispatch of the relay actor. -/
def step (s : RelayState) (e : Event) : RelayState :=
  match e with
  | .join id doa ok => acceptViewer s id doa ok
  | .leave id => handleClientDisconnect s id
  | .clientDies id =>
    { s with clients := (s.clients.map
        (fun p => if p.1 == id then (p.1, { p.2 with sendFails := true }) else p)) }
  | .sfuOpen =>
    if s.sfuSocket = some .connecting then
      broadcastStatusToClients { s with sfuSocket := some .opened, isConnectedToSFU := true }
        "Connected to SFU server"
    else s
  | .sfuMessage bytes =>
    if s.sfuSocket = some .opened then handleSfuMessage s bytes else s
  | .sfuClose =>
    if socketAlive s.sfuSocket then
      upstreamDownHandler { s with sfuSocket := some .closed }
        "Disconnected from SFU, attempting to reconnect..."
    else s
  | .sfuError =>
    if socketAlive s.sfuSocket then
      upstreamDownHandler { s with sfuSocket := some .closed } "Error connecting to SFU"
    else s
  | .staleClose =>
    if 0 < s.zombies then
      upstreamDownHandler { s with zombies := s.zombies - 1 }
        "Disconnected from SFU, attempting to reconnect..."
    else s
  | .timerFire ok =>
    match s.reconnectTimeout with
    | some h => connectToSFU { s with liveReconnect := s.liveReconnect.erase h } ok
    | none => s
  | .heartbeatTick =>
    if s.heartbeatInterval.isSome then broadcastStatusToClients s (heartbeatMsg s) else s

/-- All states one `RelayInstance` can reach: fold the event handlers over
an event list starting from the constructor's state. -/
def run (name sfuEnv : Option String) (sid : String) (now : Nat)
    (evs : List Event) : RelayState :=
  evs.foldl step (initRelay name sfuEnv sid now)

/-- The JSON body of the `/health` endpoint. -/
structure HealthBody where
  status : String
  streamId : String
  clientCount : Nat
  connectedToSFU : Bool
deriving DecidableEq, Repr

/-- The possible results of `StreamRelay.fetch`. -/
inductive RelayResponse where
  | websocketAccepted
  | json (body : HealthBody)
  | notFound
deriving DecidableEq, Repr

/-- The parts of an incoming request that `fetch` inspects. -/
structure RelayRequest where
  upgradeHeader : Option String
  pathname : String
deriving DecidableEq, Repr

/-- `StreamRelay.fetch`: websocket upgrades are accepted (the new viewer id
and transport behaviour come from the environment), `/health` answers a
JSON snapshot without touching the state, anything else is 404. -/
def relayFetch (s : RelayState) (req : RelayRequest) (newId : String)
    (doaFails ctorOk : Bool) : RelayResponse × RelayState :=
  if req.upgradeHeader = some "websocket" then
    (.websocketAccepted, acceptViewer s newId doaFails ctorOk)
  else if req.pathname = "/health" then
    (.json { status := "ok", streamId := s.streamId,
             clientCount := s.clients.length, connectedToSFU := s.isConnectedToSFU }, s)
  else (.notFound, s)

/-- The receive log of the client keyed by `id` (empty if unregistered). -/
def clientLog (s : RelayState) (id : String) : List WireData :=
  match s.clients.find? (fun p => p.1 == id) with
  | some p => p.2.received
  | none => []

/-- The per-type init-frame cache claimed by the specification. -/
structure InitFramesSpec where
  video : Option (List Nat)
  audio : Option (List Nat)
deriving DecidableEq, Repr

/-- Modelled from the spec (no such code exists in the source): "inspect its
leading discriminator byte (`0` = video, `1` = audio).  If the
corresponding `initFrames` slot is empty, populate it with this frame
(cache-once policy)".  Used only to compare the claimed caching behaviour
against the source's single `codecDescription` slot. -/
def cacheInitFrameSpec (f : InitFramesSpec) (bytes : List Nat) : InitFramesSpec :=
  match bytes.head? with
  | some 0 => if f.video = none then { f with video := some bytes } else f
  | some 1 => if f.audio = none then { f with audio := some bytes } else f
  | _ => f

/-- Whether a wire frame is a binary media frame. -/
def isBinFrame : WireData → Bool
  | .bin _ => true
  | .text _ => false

/-- The heartbeat invariant claimed by the specification: the interval is
armed exactly when the registry is non-empty. -/
def hbInv (s : RelayState) : Prop :=
  s.heartbeatInterval.isSome = !s.clients.isEmpty

/-- Events whose upstream-socket constructor (if they invoke one) returns
normally. -/
def ctorOkEv : Event → Prop
  | .join _ _ ok => ok = true
  | .timerFire ok => ok = true
  | _ => True

instance : DecidablePred ctorOkEv := by
  intro e
  cases e <;> simp only [ctorOkEv] <;> infer_instance

theorem filter_self_idem {α : Type} (p : α → Bool) (l : List α) :
    (l.filter p).filter p = l.filter p := by
  induction l with
  | nil => rfl
  | cons a t ih =>
    by_cases h : p a = true <;> simp [List.filter_cons, h, ih]

theorem find?_key_filter_ne (l : List (String × ClientConn)) (j id : String)
    (h : j ≠ id) :
    (l.filter (fun p => p.1 != j)).find? (fun p => p.1 == id) =
      l.find? (fun p => p.1 == id) := by
  induction l with
  | nil => rfl
  | cons q t ih =>
    by_cases hq : q.1 = id
    · have h1 : (q.1 != j) = true := bne_iff_ne.mpr (by rw [hq]; exact fun he => h he.symm)
      have h2 : (q.1 == id) = true := beq_iff_eq.mpr hq
      simp [List.filter_cons, List.find?, h1, h2]
    · have h2 : (q.1 == id) = false := beq_eq_false_iff_ne.mpr hq
      by_cases hj : q.1 = j
      · have h1 : (q.1 != j) = false := by simp [bne_iff_ne, hj]
        simp [List.filter_cons, List.find?, h1, h2, ih]
      · have h1 : (q.1 != j) = true := bne_iff_ne.mpr hj
        simp [List.filter_cons, List.find?, h1, h2, ih]

theorem find?_key_map_update_ne (l : List (String × ClientConn)) (j id : String)
    (f : ClientConn → ClientConn) (h : j ≠ id) :
    ((l.map (fun p => if p.1 == j then (p.1, f p.2) else p)).find?
        (fun p => p.1 == id)) =
      l.find? (fun p => p.1 == id) := by
  induction l with
  | nil => rfl
  | cons q t ih =>
    by_cases hj : q.1 = j
    · have h1 : (q.1 == j) = true := beq_iff_eq.mpr hj
      have h2 : (q.1 == id) = false := beq_eq_false_iff_ne.mpr (by rw [hj]; exact h)
      simp [List.map_cons, List.find?, h1, h2, -List.find?_map]
      simpa using ih
    · have h1 : (q.1 == j) = false := beq_eq_false_iff_ne.mpr hj
      by_cases hq : q.1 = id
      · have h2 : (q.1 == id) = true := beq_iff_eq.mpr hq
        simp [List.map_cons, List.find?, h1, h2, -List.find?_map]
      · have h2 : (q.1 == id) = false := beq_eq_false_iff_ne.mpr hq
        simp [List.map_cons, List.find?, h1, h2, -List.find?_map]
        simpa using ih

theorem find?_key_map_update_self (l : List (String × ClientConn)) (id : String)
    (f : ClientConn → ClientConn) :
    ((l.map (fun p => if p.1 == id then (p.1, f p.2) else p)).find?
        (fun p => p.1 == id)) =
      (l.find? (fun p => p.1 == id)).map (fun p => (p.1, f p.2)) := by
  induction l with
  | nil => rfl
  | cons q t ih =>
    by_cases hq : q.1 = id
    · have h1 : (q.1 == id) = true := beq_iff_eq.mpr hq
      simp [List.map_cons, List.find?, h1, -List.find?_map]
    · have h1 : (q.1 == id) = false := beq_eq_false_iff_ne.mpr hq
      simp [List.map_cons, List.find?, h1, -List.find?_map]
      simpa using ih

theorem find?_key_middle (l1 : List (String × ClientConn))
    (l2 : List (String × ClientConn)) (id : String)
    (x : ClientConn) (h : ∀ p ∈ l1, p.1 ≠ id) :
    (l1 ++ (id, x) :: l2).find? (fun p => p.1 == id) = some (id, x) := by
  induction l1 with
  | nil => simp [List.find?]
  | cons q t ih =>
    have hq : (q.1 == id) = false := beq_eq_false_iff_ne.mpr (h q (by simp))
    simp only [List.cons_append, List.find?, hq]
    exact ih fun p hp => h p (by simp [hp])

theorem find?_key_append_fresh (l : List (String × ClientConn)) (id : String)
    (x : ClientConn) (h : ∀ p ∈ l, p.1 ≠ id) :
    (l ++ [(id, x)]).find? (fun p => p.1 == id) = some (id, x) :=
  find?_key_middle l [] id x h

theorem hcd_codec (s : RelayState) (id : String) :
    (handleClientDisconnect s id).codecDescription = s.codecDescription := by
  unfold handleClientDisconnect; dsimp only; split <;> rfl

theorem hcd_currentWsUrl (s : RelayState) (id : String) :
    (handleClientDisconnect s id).currentWsUrl = s.currentWsUrl := by
  unfold handleClientDisconnect; dsimp only; split <;> rfl

theorem hcd_now (s : RelayState) (id : String) :
    (handleClientDisconnect s id).now = s.now := by
  unfold handleClientDisconnect; dsimp only; split <;> rfl

theorem hcd_nextTimer (s : RelayState) (id : String) :
    (handleClientDisconnect s id).nextTimer = s.nextTimer := by
  unfold handleClientDisconnect; dsimp only; split <;> rfl

theorem hcd_sfuUrl (s : RelayState) (id : String) :
    (handleClientDisconnect s id).sfuUrl = s.sfuUrl := by
  unfold handleClientDisconnect; dsimp only; split <;> rfl

theorem hcd_streamId (s : RelayState) (id : String) :
    (handleClientDisconnect s id).streamId = s.streamId := by
  unfold handleClientDisconnect; dsimp only; split <;> rfl

theorem hcd_stateIdStr (s : RelayState) (id : String) :
    (handleClientDisconnect s id).stateIdStr = s.stateIdStr := by
  unfold handleClientDisconnect; dsimp only; split <;> rfl

theorem hcd_clients (s : RelayState) (id : String) :
    (handleClientDisconnect s id).clients = s.clients.filter (fun p => p.1 != id) := by
  unfold handleClientDisconnect; dsimp only; split <;> rfl

theorem hcd_hb (s : RelayState) (id : String) :
    (handleClientDisconnect s id).heartbeatInterval =
      if (s.clients.filter (fun p => p.1 != id)).length = 0 then none
      else s.heartbeatInterval := by
  unfold handleClientDisconnect; dsimp only
  split <;> rfl

theorem deliver_clients_length (s : RelayState) (id : String) (d : WireData) :
    (deliverTo s id d).clients.length = s.clients.length := by
  unfold deliverTo; dsimp only; rw [List.length_map]

theorem sendLoop_codec (snap : List (String × ClientConn)) (s : RelayState) (d : WireData) :
    (sendLoop s snap d).codecDescription = s.codecDescription := by
  induction snap generalizing s with
  | nil => rfl
  | cons q t ih =>
    unfold sendLoop; split
    · rw [ih, hcd_codec]
    · rw [ih]; rfl

theorem sendLoop_currentWsUrl (snap : List (String × ClientConn)) (s : RelayState)
    (d : WireData) :
    (sendLoop s snap d).currentWsUrl = s.currentWsUrl := by
  induction snap generalizing s with
  | nil => rfl
  | cons q t ih =>
    unfold sendLoop; split
    · rw [ih, hcd_currentWsUrl]
    · rw [ih]; rfl

theorem sendLoop_now (snap : List (String × ClientConn)) (s : RelayState) (d : WireData) :
    (sendLoop s snap d).now = s.now := by
  induction snap generalizing s with
  | nil => rfl
  | cons q t ih =>
    unfold sendLoop; split
    · rw [ih, hcd_now]
    · rw [ih]; rfl

theorem sendLoop_streamId (snap : List (String × ClientConn)) (s : RelayState)
    (d : WireData) :
    (sendLoop s snap d).streamId = s.streamId := by
  induction snap generalizing s with
  | nil => rfl
  | cons q t ih =>
    unfold sendLoop; split
    · rw [ih, hcd_streamId]
    · rw [ih]; rfl

theorem sendLoop_sfuUrl (snap : List (String × ClientConn)) (s : RelayState)
    (d : WireData) :
    (sendLoop s snap d).sfuUrl = s.sfuUrl := by
  induction snap generalizing s with
  | nil => rfl
  | cons q t ih =>
    unfold sendLoop; split
    · rw [ih, hcd_sfuUrl]
    · rw [ih]; rfl

theorem sched_codec (s : RelayState) :
    (scheduleReconnect s).codecDescription = s.codecDescription := by
  unfold scheduleReconnect; split <;> rfl

theorem sched_currentWsUrl (s : RelayState) :
    (scheduleReconnect s).currentWsUrl = s.currentWsUrl := by
  unfold scheduleReconnect; split <;> rfl

theorem sched_clients (s : RelayState) :
    (scheduleReconnect s).clients = s.clients := by
  unfold scheduleReconnect; split <;> rfl

theorem sched_hb (s : RelayState) :
    (scheduleReconnect s).heartbeatInterval = s.heartbeatInterval := by
  unfold scheduleReconnect; split <;> rfl

theorem clear_codec (s : RelayState) :
    (clearReconnect s).codecDescription = s.codecDescription := by
  unfold clearReconnect; split <;> rfl

theorem clear_clients (s : RelayState) :
    (clearReconnect s).clients = s.clients := by
  unfold clearReconnect; split <;> rfl

theorem clear_hb (s : RelayState) :
    (clearReconnect s).heartbeatInterval = s.heartbeatInterval := by
  unfold clearReconnect; split <;> rfl

theorem clear_streamId (s : RelayState) :
    (clearReconnect s).streamId = s.streamId := by
  unfold clearReconnect; split <;> rfl

theorem clear_sfuUrl (s : RelayState) :
    (clearReconnect s).sfuUrl = s.sfuUrl := by
  unfold clearReconnect; split <;> rfl

theorem conn_codec (s : RelayState) (ok : Bool) :
    (connectToSFU s ok).codecDescription = s.codecDescription := by
  unfold connectToSFU; dsimp only
  split
  · rw [clear_codec]
  · rw [sched_codec]
    unfold broadcastStatusToClients
    rw [sendLoop_codec]
    exact clear_codec s

theorem conn_currentWsUrl (s : RelayState) (ok : Bool) :
    (connectToSFU s ok).currentWsUrl = some (wsUrlOf (clearReconnect s)) := by
  unfold connectToSFU; dsimp only
  split
  · rfl
  · rw [sched_currentWsUrl]
    unfold broadcastStatusToClients
    rw [sendLoop_currentWsUrl]

theorem conn_clients_true (s : RelayState) :
    (connectToSFU s true).clients = s.clients := by
  unfold connectToSFU; dsimp only
  rw [if_pos rfl]; exact clear_clients s

theorem conn_hb_true (s : RelayState) :
    (connectToSFU s true).heartbeatInterval = s.heartbeatInterval := by
  unfold connectToSFU; dsimp only
  rw [if_pos rfl]; exact clear_hb s

theorem startHB_codec (s : RelayState) :
    (startHeartbeat s).codecDescription = s.codecDescription := rfl

theorem sendStatus_codec (s : RelayState) (id : String) (msg : String) :
    (sendStatusToClient s id msg).codecDescription = s.codecDescription := by
  unfold sendStatusToClient
  split
  · rfl
  · split
    · rw [hcd_codec]
    · rfl

theorem accept_codec (s : RelayState) (id : String) (doa ok : Bool) :
    (acceptViewer s id doa ok).codecDescription = s.codecDescription := by
  unfold acceptViewer
  dsimp only
  split
  · rw [startHB_codec, conn_codec]
    exact sendStatus_codec _ _ _
  · split
    · split
      · split
        · split
          · exact sendStatus_codec _ _ _
          · exact sendStatus_codec _ _ _
        · exact sendStatus_codec _ _ _
      · exact sendStatus_codec _ _ _
    · exact sendStatus_codec _ _ _

theorem upstreamDown_codec (s : RelayState) (msg : String) :
    (upstreamDownHandler s msg).codecDescription = s.codecDescription := by
  unfold upstreamDownHandler broadcastStatusToClients
  rw [sched_codec, sendLoop_codec]

theorem step_codec_some (s : RelayState) (e : Event) (c : List Nat)
    (h : s.codecDescription = some c) : (step s e).codecDescription = some c := by
  cases e with
  | join id doa ok => rw [step, accept_codec]; exact h
  | leave id => rw [step, hcd_codec]; exact h
  | clientDies id => rw [step]; exact h
  | sfuOpen =>
    rw [step]; split
    · unfold broadcastStatusToClients; rw [sendLoop_codec]; exact h
    · exact h
  | sfuMessage bytes =>
    rw [step]; split
    · unfold handleSfuMessage fanOutToClients
      dsimp only
      rw [sendLoop_codec]
      rw [if_neg (by rw [h]; exact fun hh => Option.noConfusion hh)]
      exact h
    · exact h
  | sfuClose =>
    rw [step]; split
    · rw [upstreamDown_codec]; exact h
    · exact h
  | sfuError =>
    rw [step]; split
    · rw [upstreamDown_codec]; exact h
    · exact h
  | staleClose =>
    rw [step]; split
    · rw [upstreamDown_codec]; exact h
    · exact h
  | timerFire ok =>
    rw [step]
    rcases hr : s.reconnectTimeout with _ | hh
    · exact h
    · dsimp only; rw [conn_codec]; exact h
  | heartbeatTick =>
    rw [step]; split
    · unfold broadcastStatusToClients; rw [sendLoop_codec]; exact h
    · exact h

/-- Claim C6: `handleClientDisconnect` is idempotent — calling it twice with
the same client id yields exactly the same `RelayInstance` state as calling
it once (registry, upstream connection slot, connected flag, both timer
handles, and every other field included). -/
theorem c6_disconnect_idempotent (s : RelayState) (id : String) :
    handleClientDisconnect (handleClientDisconnect s id) id =
      handleClientDisconnect s id := by
  unfold handleClientDisconnect
  dsimp only
  by_cases hl : (s.clients.filter (fun p => p.1 != id)).length = 0
  · have h0 : s.clients.filter (fun p => p.1 != id) = [] := List.length_eq_zero.mp hl
    simp [h0, socketAlive]
  · simp [hl, filter_self_idem]

/-- Claim C7: the `/health` branch of `fetch` returns a JSON record holding
exactly the status marker, the stream id, the current client count and the
current upstream-connected flag, and leaves every field of the
`RelayInstance` state unchanged (the returned state is the input state). -/
theorem c7_health_snapshot (s : RelayState) (newId : String) (doa ok : Bool) :
    relayFetch s { upgradeHeader := none, pathname := "/health" } newId doa ok =
      (RelayResponse.json
        { status := "ok", streamId := s.streamId,
          clientCount := s.clients.length, connectedToSFU := s.isConnectedToSFU },
       s) := rfl

/-- Claim C8: every upstream connect attempt dials
`` `${sfuUrl}/consume/${streamId}` ``, where `sfuUrl` is the configured
`SFU_SERVER_URL` when that is a non-empty string and the loopback
placeholder `ws://127.0.0.1:5500` when it is absent or empty; in
particular stream `alpha` is dialled at `<base>/consume/alpha`. -/
theorem c8_upstream_url :
    (∀ (s : RelayState) (ok : Bool),
       (connectToSFU s ok).currentWsUrl = some (s.sfuUrl ++ "/consume/" ++ s.streamId)) ∧
    (∀ name sid now, (initRelay name none sid now).sfuUrl = "ws://127.0.0.1:5500") ∧
    (∀ name sid now, (initRelay name (some "") sid now).sfuUrl = "ws://127.0.0.1:5500") ∧
    (∀ (base : String) name sid now, base ≠ "" →
       (initRelay name (some base) sid now).sfuUrl = base) ∧
    (connectToSFU (initRelay (some "stream:alpha") (some "wss://sfu.example") "d" 0)
        true).currentWsUrl = some "wss://sfu.example/consume/alpha" := by
  refine ⟨fun s ok => ?_, fun name sid now => rfl, fun name sid now => rfl,
    fun base name sid now hb => ?_, by decide⟩
  · rw [conn_currentWsUrl]
    unfold wsUrlOf
    rw [clear_sfuUrl, clear_streamId]
  · simp [initRelay, jsOrString, hb]

theorem c8_upstream_url_witness :
    (initRelay none (some "ws://origin.internal:5500") "d" 0).sfuUrl =
      "ws://origin.internal:5500" :=
  c8_upstream_url.2.2.2.1 "ws://origin.internal:5500" none "d" 0 (by decide)

/-- Claim C1 counterexample: the source's message handler does not inspect
the leading discriminator byte and keeps no per-type slots — it caches only
the first payload, whatever its type, in the single `codecDescription`
field.  After a video-discriminator frame `[0, 7]` has been cached, an
audio-discriminator frame `[1, 9]` arrives while no audio-type frame is
cached anywhere; the claim requires the (empty) audio slot to be populated
with it, but the state after the handler still caches exactly the video
frame and nothing else, while the spec's claimed two-slot cache
(`cacheInitFrameSpec`) would have stored the audio frame. -/
theorem c1_counterexample :
    ((run (some "stream:alpha") none "d" 0
        [Event.join "A" false true, Event.sfuOpen, Event.sfuMessage [0, 7]]).codecDescription
      = some [0, 7]) ∧
    ((run (some "stream:alpha") none "d" 0
        [Event.join "A" false true, Event.sfuOpen, Event.sfuMessage [0, 7],
         Event.sfuMessage [1, 9]]).codecDescription = some [0, 7]) ∧
    (cacheInitFrameSpec { video := some [0, 7], audio := none } [1, 9]).audio
      = some [1, 9] ∧
    some [1, 9] ≠ some [0, 7] := by decide

/-- Claim C1 (amended): the relay keeps a single `codecDescription` cache
slot, not two per-type slots.  When an upstream payload arrives while that
slot is empty, the handler populates it with that payload regardless of its
discriminator byte; and once the slot is populated, no later event of any
kind (further upstream frames included) ever changes it, for the lifetime
of the `RelayInstance`. -/
theorem c1_cache_once_amended :
    (∀ (s : RelayState) (bytes : List Nat), s.codecDescription = none →
       (handleSfuMessage s bytes).codecDescription = some bytes) ∧
    (∀ (s : RelayState) (e : Event) (c : List Nat), s.codecDescription = some c →
       (step s e).codecDescription = some c) := by
  constructor
  · intro s bytes h
    unfold handleSfuMessage fanOutToClients
    dsimp only
    rw [sendLoop_codec, if_pos h]
    unfold broadcastStatusToClients
    rw [sendLoop_codec]
  · exact step_codec_some

theorem c1_cache_once_witness :
    ((handleSfuMessage (initRelay none none "d" 0) [0, 7]).codecDescription = some [0, 7]) ∧
    ((step (run (some "stream:alpha") none "d" 0
        [Event.join "A" false true, Event.sfuOpen, Event.sfuMessage [0, 7]])
      (Event.sfuMessage [1, 9])).codecDescription = some [0, 7]) :=
  ⟨c1_cache_once_amended.1 (initRelay none none "d" 0) [0, 7] rfl,
   c1_cache_once_amended.2 _ (Event.sfuMessage [1, 9]) [0, 7] (by decide)⟩

theorem splitColon_no_colon (l : List Char) (h : ':' ∉ l) : splitColon l = [l] := by
  induction l with
  | nil => rfl
  | cons c t ih =>
    have hc : ¬c = ':' := fun hh => h (by simp [hh])
    have ht : ':' ∉ t := fun hh => h (by simp [hh])
    simp [splitColon, hc, ih ht]

theorem splitColon_before_colon (l m : List Char) (h : ':' ∉ l) :
    splitColon (l ++ ':' :: m) = l :: splitColon m := by
  induction l with
  | nil => simp [splitColon]
  | cons c t ih =>
    have hc : ¬c = ':' := fun hh => h (by simp [hh])
    have ht : ':' ∉ t := fun hh => h (by simp [hh])
    simp [splitColon, hc, ih ht]

/-- Claim C10 counterexample: the hosting-actor name `"stream:"` does
contain a `':'` separator and splitting it on `':'` has the empty string at
index 1, yet the constructor does not set `streamId` to that element — the
JS `||` falls back on the empty string, so `streamId` becomes
`"test_stream"`. -/
theorem c10_counterexample :
    (initRelay (some "stream:") none "d" 0).streamId = "test_stream" ∧
    (splitColon "stream:".data).get? 1 = some [] ∧
    ("test_stream" : String) ≠ String.mk [] := by decide

/-- Claim C10 (amended): the constructor sets `streamId` to the element at
index 1 of splitting the hosting-actor name on `':'` whenever that element
exists and is non-empty (so for the routing layer's `stream:<id>` names
with a non-empty, colon-free id it is exactly the id); it falls back to
`"test_stream"` when the name is absent, contains no `':'`, or the element
at index 1 is the empty string. -/
theorem c10_streamid_amended :
    (∀ (idStr : String), ':' ∉ idStr.data → idStr ≠ "" →
       ∀ env sid now,
         (initRelay (some ("stream:" ++ idStr)) env sid now).streamId = idStr) ∧
    (∀ env sid now, (initRelay none env sid now).streamId = "test_stream") ∧
    (∀ (n : String), ':' ∉ n.data →
       ∀ env sid now, (initRelay (some n) env sid now).streamId = "test_stream") ∧
    (∀ env sid now,
       (initRelay (some "stream:") env sid now).streamId = "test_stream") := by
  refine ⟨fun idStr hcolon hne env sid now => ?_, fun env sid now => rfl,
    fun n hcolon env sid now => ?_,
    fun env sid now => show streamIdOf (some "stream:") = "test_stream" by decide⟩
  · show streamIdOf (some ("stream:" ++ idStr)) = idStr
    have hdata : ("stream:" ++ idStr).data = "stream".data ++ ':' :: idStr.data := by
      rw [String.data_append]; rfl
    have hnd : idStr.data ≠ [] := by
      intro hd
      apply hne
      cases idStr with
      | mk l => cases hd; rfl
    unfold streamIdOf
    dsimp only
    rw [hdata, splitColon_before_colon _ _ (by decide),
      splitColon_no_colon idStr.data hcolon]
    simp only [List.get?]
    rw [if_neg hnd]
  · show streamIdOf (some n) = "test_stream"
    unfold streamIdOf
    dsimp only
    rw [splitColon_no_colon n.data hcolon]
    rfl

theorem c10_streamid_amended_witness :
    (initRelay (some ("stream:" ++ "alpha")) none "d" 0).streamId = "alpha" :=
  c10_streamid_amended.1 "alpha" (by decide) (by decide) none "d" 0

theorem deliver_clients (s : RelayState) (id : String) (d : WireData) :
    (deliverTo s id d).clients = s.clients.map
      (fun p => if p.1 == id then (p.1, { p.2 with received := p.2.received ++ [d] }) else p) := rfl

/-- Claim C2: broadcasting a binary frame over a registry of three viewers
of which exactly one has a transport whose every send throws removes
exactly the throwing viewer and leaves the other two registered with the
frame appended to their receive logs exactly once.  The per-client
`try`/`catch` in the send loop is what makes the modelled `fanOutToClients`
a total function: the exception is consumed as a disconnect of the one
failing client and never reaches the caller or the other viewers. -/
theorem c2_fanout_isolation (s : RelayState) (a b c : String) (A B C : ClientConn)
    (d : List Nat)
    (hc : s.clients = [(a, A), (b, B), (c, C)])
    (hab : a ≠ b) (hac : a ≠ c) (hbc : b ≠ c)
    (h1 : (s.clients.filter (fun p => p.2.sendFails)).length = 1) :
    (fanOutToClients s (.bin d)).clients =
      (s.clients.filter (fun p => !p.2.sendFails)).map
        (fun p => (p.1, { p.2 with received := p.2.received ++ [WireData.bin d] })) := by
  have hba := Ne.symm hab
  have hca := Ne.symm hac
  have hcb := Ne.symm hbc
  unfold fanOutToClients
  rw [hc] at h1 ⊢
  cases hA : A.sendFails <;> cases hB : B.sendFails <;> cases hC : C.sendFails <;>
      simp [hA, hB, hC] at h1 <;>
    simp [sendLoop, hA, hB, hC, deliver_clients, hcd_clients, hc, bne_iff_ne, beq_iff_eq,
      hab, hac, hbc, hba, hca, hcb]

theorem c2_fanout_isolation_witness :
    (fanOutToClients
        { initRelay none none "d" 0 with
            clients := [("a", { sendFails := true, received := [] }),
                        ("b", { sendFails := false, received := [] }),
                        ("c", { sendFails := false, received := [] })] }
        (.bin [3, 4])).clients =
      (({ initRelay none none "d" 0 with
            clients := [("a", { sendFails := true, received := [] }),
                        ("b", { sendFails := false, received := [] }),
                        ("c", { sendFails := false, received := [] })] } : RelayState).clients.filter
          (fun p => !p.2.sendFails)).map
        (fun p => (p.1, { p.2 with received := p.2.received ++ [WireData.bin [3, 4]] })) :=
  c2_fanout_isolation _ "a" "b" "c"
    { sendFails := true, received := [] } { sendFails := false, received := [] }
    { sendFails := false, received := [] } [3, 4] rfl (by decide) (by decide) (by decide)
    (by decide)

theorem clientsSet_append_of_fresh (cs : List (String × ClientConn)) (id : String)
    (c : ClientConn) (h : ∀ p ∈ cs, p.1 ≠ id) :
    clientsSet cs id c = cs ++ [(id, c)] := by
  unfold clientsSet
  rw [if_neg]
  intro hany
  rw [List.any_eq_true] at hany
  obtain ⟨p, hp, hbeq⟩ := hany
  exact h p hp (beq_iff_eq.mp hbeq)

theorem map_update_append_fresh (l : List (String × ClientConn)) (id : String)
    (x : ClientConn) (f : ClientConn → ClientConn) (h : ∀ p ∈ l, p.1 ≠ id) :
    ((l ++ [(id, x)]).map (fun p => if p.1 == id then (p.1, f p.2) else p)) =
      l ++ [(id, f x)] := by
  induction l with
  | nil => simp
  | cons q t ih =>
    have hq : (q.1 == id) = false := beq_eq_false_iff_ne.mpr (h q (by simp))
    have ht := ih fun p hp => h p (by simp [hp])
    simp only [List.cons_append, List.map_cons, hq, Bool.false_eq_true, if_false]
    rw [ht]

theorem clientLog_append_fresh (s : RelayState) (l : List (String × ClientConn))
    (id : String) (y : ClientConn)
    (hc : s.clients = l ++ [(id, y)]) (h : ∀ p ∈ l, p.1 ≠ id) :
    clientLog s id = y.received := by
  unfold clientLog
  rw [hc, find?_key_append_fresh l id y h]

theorem sendStatus_fresh_append (s : RelayState) (id : String) (msg : String)
    (y : ClientConn) (l : List (String × ClientConn))
    (hy : y.sendFails = false)
    (hc : s.clients = l ++ [(id, y)]) (h : ∀ p ∈ l, p.1 ≠ id) :
    sendStatusToClient s id msg = deliverTo s id (.text (statusText s msg)) := by
  unfold sendStatusToClient
  rw [hc, find?_key_append_fresh l id y h]
  dsimp only
  rw [hy]
  simp

/-- Claim C3 (amended): a viewer that joins while the upstream link is
connected and the codec cache is populated receives, within the join
handling itself, first its initial status text frame and then exactly ONE
cached binary frame — the single cached `codecDescription` payload (the
source keeps one cache slot, not two per-type init slots).  Its receive log
after the join is exactly `[initial status, cached frame]`, so the cached
frame reaches it before any broadcast-originated frame can (broadcasts only
happen in later events). -/
theorem c3_latejoin_amended (s : RelayState) (id : String) (c : List Nat) (ok : Bool)
    (hne : s.clients ≠ [])
    (hfresh : ∀ p ∈ s.clients, p.1 ≠ id)
    (hconn : s.isConnectedToSFU = true)
    (hcodec : s.codecDescription = some c) :
    clientLog (acceptViewer s id false ok) id =
      [WireData.text (statusText s (initialStatusMsg s)), WireData.bin c] := by
  have hset : clientsSet s.clients id { sendFails := false, received := [] } =
      s.clients ++ [(id, { sendFails := false, received := [] })] :=
    clientsSet_append_of_fresh _ _ _ hfresh
  unfold acceptViewer
  dsimp only
  rw [hset]
  rw [sendStatus_fresh_append _ id _ { sendFails := false, received := [] } s.clients rfl
    rfl hfresh]
  generalize hR :
    ({ s with clients := s.clients ++ [(id, (⟨false, []⟩ : ClientConn))] } : RelayState) = R
  have hRc : R.clients = s.clients ++ [(id, (⟨false, []⟩ : ClientConn))] := by
    rw [← hR]
  have hRinit : initialStatusMsg R = initialStatusMsg s := by rw [← hR]; rfl
  have hRst : statusText R (initialStatusMsg s) = statusText s (initialStatusMsg s) := by
    rw [← hR]; rfl
  rw [hRinit, hRst]
  have hdc : (deliverTo R id
      (WireData.text (statusText s (initialStatusMsg s)))).clients =
      s.clients ++ [(id, (⟨false,
        [WireData.text (statusText s (initialStatusMsg s))]⟩ : ClientConn))] := by
    rw [deliver_clients, hRc]
    exact map_update_append_fresh s.clients id ⟨false, []⟩
      (fun c0 => { c0 with
        received := c0.received ++ [WireData.text (statusText s (initialStatusMsg s))] })
      hfresh
  rw [hdc]
  rw [if_neg (by simp [List.length_eq_zero]; exact hne)]
  rw [show (deliverTo R id
      (WireData.text (statusText s (initialStatusMsg s)))).isConnectedToSFU = true from hconn ▸
        (by rw [← hR]; rfl :
          (deliverTo R id (WireData.text (statusText s (initialStatusMsg s)))).isConnectedToSFU
            = s.isConnectedToSFU)]
  rw [if_pos rfl]
  rw [show (deliverTo R id
      (WireData.text (statusText s (initialStatusMsg s)))).codecDescription = some c from
        hcodec ▸ (by rw [← hR]; rfl :
          (deliverTo R id (WireData.text (statusText s (initialStatusMsg s)))).codecDescription
            = s.codecDescription)]
  rw [find?_key_append_fresh s.clients id _ hfresh]
  dsimp only
  rw [clientLog_append_fresh _ s.clients id
    ⟨false, [WireData.text (statusText s (initialStatusMsg s)), WireData.bin c]⟩ ?hc hfresh]
  case hc =>
    rw [if_neg (by simp)]
    rw [deliver_clients, hdc]
    exact map_update_append_fresh s.clients id _
      (fun c0 => { c0 with received := c0.received ++ [WireData.bin c] }) hfresh

theorem c3_latejoin_amended_witness :
    clientLog
      (acceptViewer
        (run (some "stream:alpha") none "d" 0
          [Event.join "v1" false true, Event.sfuOpen, Event.sfuMessage [0, 5]])
        "v2" false true) "v2" =
      [WireData.text
        (statusText
          (run (some "stream:alpha") none "d" 0
            [Event.join "v1" false true, Event.sfuOpen, Event.sfuMessage [0, 5]])
          (initialStatusMsg
            (run (some "stream:alpha") none "d" 0
              [Event.join "v1" false true, Event.sfuOpen, Event.sfuMessage [0, 5]]))),
       WireData.bin [0, 5]] :=
  c3_latejoin_amended _ "v2" [0, 5] true (by decide) (by decide) (by decide) (by decide)

/-- Claim C3 counterexample: with the upstream connected and the cache
populated (after the frame `[0, 5]` arrived), a joining viewer receives
exactly ONE cached binary frame, not the two per-type init frames the claim
describes — the source has a single `codecDescription` slot and replays
only it (part_000 lines 72-75). -/
theorem c3_counterexample :
    ((clientLog
        (acceptViewer
          (run (some "stream:alpha") none "d" 0
            [Event.join "v1" false true, Event.sfuOpen, Event.sfuMessage [0, 5]])
          "v2" false true) "v2").filter isBinFrame = [WireData.bin [0, 5]]) ∧
    ((clientLog
        (acceptViewer
          (run (some "stream:alpha") none "d" 0
            [Event.join "v1" false true, Event.sfuOpen, Event.sfuMessage [0, 5]])
          "v2" false true) "v2").filter isBinFrame).length ≠ 2 := by decide

/-- Claim C5 evaluation at the failing event sequence: viewer A joins (the
relay dials upstream socket S1), S1 opens, A leaves (`handleClientDisconnect`
calls `S1.close()` but S1's close listener stays registered), viewer B
joins (the relay dials a fresh upstream socket S2, now CONNECTING), and
then S1's pending close event is delivered.  The close handler
(part_000 lines 150-157) runs `scheduleReconnect` with no check that its
socket is still the current one, so the relay ends with the reconnect
timeout armed WHILE a connect attempt is pending — contradicting the
claimed if-and-only-if invariant.  When that timer later fires it dials a
third upstream socket while S2 may already be open. -/
theorem c5_stale_close_arms_timer_while_connecting :
    ((run (some "stream:alpha") none "d" 0
        [Event.join "A" false true, Event.sfuOpen, Event.leave "A",
         Event.join "B" false true, Event.staleClose]).reconnectTimeout = some 2) ∧
    ((run (some "stream:alpha") none "d" 0
        [Event.join "A" false true, Event.sfuOpen, Event.leave "A",
         Event.join "B" false true, Event.staleClose]).sfuSocket
      = some SocketPhase.connecting) ∧
    ((run (some "stream:alpha") none "d" 0
        [Event.join "A" false true, Event.sfuOpen, Event.leave "A",
         Event.join "B" false true, Event.staleClose]).isConnectedToSFU = false) ∧
    ((run (some "stream:alpha") none "d" 0
        [Event.join "A" false true, Event.sfuOpen, Event.leave "A",
         Event.join "B" false true, Event.staleClose]).clients.length = 1) ∧
    ((run (some "stream:alpha") none "d" 0
        [Event.join "A" false true, Event.sfuOpen, Event.leave "A",
         Event.join "B" false true, Event.staleClose]).liveReconnect = [2]) := by
  decide

theorem isDigit_digitOf (n : Nat) : (digitOf n).isDigit = true := by
  rcases n with _ | _ | _ | _ | _ | _ | _ | _ | _ | n <;> rfl

theorem isISO8601_toISOString (t : Nat) : isISO8601 (toISOString t) = true := by
  unfold toISOString isISO8601 pad4 pad3 pad2
  dsimp only
  simp [isDigit_digitOf]

theorem hcd_find_ne (s : RelayState) (j id : String) (h : j ≠ id) :
    (handleClientDisconnect s j).clients.find? (fun p => p.1 == id) =
      s.clients.find? (fun p => p.1 == id) := by
  rw [hcd_clients]
  exact find?_key_filter_ne s.clients j id h

theorem deliver_find_ne (s : RelayState) (j id : String) (d : WireData) (h : j ≠ id) :
    (deliverTo s j d).clients.find? (fun p => p.1 == id) =
      s.clients.find? (fun p => p.1 == id) :=
  find?_key_map_update_ne s.clients j id
    (fun c0 => { c0 with received := c0.received ++ [d] }) h

theorem deliver_find_self (s : RelayState) (id : String) (d : WireData) :
    (deliverTo s id d).clients.find? (fun p => p.1 == id) =
      (s.clients.find? (fun p => p.1 == id)).map
        (fun p => (p.1, { p.2 with received := p.2.received ++ [d] })) :=
  find?_key_map_update_self s.clients id
    (fun c0 => { c0 with received := c0.received ++ [d] })

theorem sendLoop_find_ne (snap : List (String × ClientConn)) (s : RelayState)
    (d : WireData) (id : String) (h : ∀ p ∈ snap, p.1 ≠ id) :
    (sendLoop s snap d).clients.find? (fun p => p.1 == id) =
      s.clients.find? (fun p => p.1 == id) := by
  induction snap generalizing s with
  | nil => rfl
  | cons q t ih =>
    obtain ⟨qi, qc⟩ := q
    have hq : qi ≠ id := h (qi, qc) (by simp)
    have ht : ∀ p ∈ t, p.1 ≠ id := fun p hp => h p (by simp [hp])
    unfold sendLoop
    try dsimp only
    split
    · rw [ih _ ht, hcd_find_ne _ _ _ hq]
    · rw [ih _ ht, deliver_find_ne _ _ _ _ hq]

theorem sendLoop_log_mem (l1 : List (String × ClientConn)) (s : RelayState) (d : WireData)
    (id : String) (cl : ClientConn) (l2 : List (String × ClientConn))
    (h1 : ∀ p ∈ l1, p.1 ≠ id) (h2 : ∀ p ∈ l2, p.1 ≠ id)
    (hfail : cl.sendFails = false)
    (hfind : s.clients.find? (fun p => p.1 == id) = some (id, cl)) :
    clientLog (sendLoop s (l1 ++ (id, cl) :: l2) d) id = cl.received ++ [d] := by
  induction l1 generalizing s with
  | nil =>
    rw [List.nil_append]
    unfold sendLoop
    try dsimp only
    rw [hfail]
    simp only [Bool.false_eq_true, if_false]
    unfold clientLog
    rw [sendLoop_find_ne l2 _ d id h2, deliver_find_self, hfind]
    rfl
  | cons q t ih =>
    obtain ⟨qi, qc⟩ := q
    have hq : qi ≠ id := h1 (qi, qc) (by simp)
    have ht : ∀ p ∈ t, p.1 ≠ id := fun p hp => h1 p (by simp [hp])
    rw [List.cons_append]
    unfold sendLoop
    try dsimp only
    split
    · exact ih _ ht (by rw [hcd_find_ne _ _ _ hq]; exact hfind)
    · exact ih _ ht (by rw [deliver_find_ne _ _ _ _ hq]; exact hfind)

theorem clientLog_broadcast_mem (s : RelayState) (id : String) (cl : ClientConn)
    (msg : String)
    (hnd : (s.clients.map Prod.fst).Nodup)
    (hmem : (id, cl) ∈ s.clients)
    (hfail : cl.sendFails = false) :
    clientLog (broadcastStatusToClients s msg) id =
      clientLog s id ++ [WireData.text (statusText s msg)] := by
  obtain ⟨l1, l2, hsplit⟩ := List.mem_iff_append.mp hmem
  have hmap : s.clients.map Prod.fst = l1.map Prod.fst ++ id :: l2.map Prod.fst := by
    rw [hsplit]; simp
  rw [hmap] at hnd
  have hid1 : id ∉ l1.map Prod.fst := by
    intro hin
    exact (List.disjoint_of_nodup_append hnd) hin (by simp)
  have hnd2 : (id :: l2.map Prod.fst).Nodup := (List.nodup_append.mp hnd).2.1
  have hid2 : id ∉ l2.map Prod.fst := (List.nodup_cons.mp hnd2).1
  have h1 : ∀ p ∈ l1, p.1 ≠ id := by
    intro p hp he
    exact hid1 (he ▸ List.mem_map_of_mem Prod.fst hp)
  have h2 : ∀ p ∈ l2, p.1 ≠ id := by
    intro p hp he
    exact hid2 (he ▸ List.mem_map_of_mem Prod.fst hp)
  have hfind : s.clients.find? (fun p => p.1 == id) = some (id, cl) := by
    rw [hsplit]; exact find?_key_middle l1 l2 id cl h1
  have hlog : clientLog s id = cl.received := by
    unfold clientLog; rw [hfind]
  unfold broadcastStatusToClients
  rw [hsplit]
  rw [sendLoop_log_mem l1 s _ id cl l2 h1 h2 hfail hfind, hlog]

/-- Claim C9: every status message the relay sends — the initial
per-viewer status (`sendStatusToClient`), a broadcast status, and the
heartbeat tick's broadcast — is a text frame serializing a record with
exactly the fields `type = "status"`, the message string, a timestamp in
ISO-8601 form (`toISOString` of the current clock, always matching
`isISO8601`), and the current upstream-connected flag as
`isConnectedToSFU` (the `StatusMessage` structure has exactly those four
fields). -/
theorem c9_status_wire_shape :
    (∀ t, isISO8601 (toISOString t) = true) ∧
    (∀ (s : RelayState) (id : String) (cl : ClientConn) (msg : String),
       s.clients.find? (fun p => p.1 == id) = some (id, cl) → cl.sendFails = false →
       clientLog (sendStatusToClient s id msg) id =
         clientLog s id ++ [WireData.text (jsonOfStatus
           { type := "status", message := msg, timestamp := toISOString s.now,
             isConnectedToSFU := s.isConnectedToSFU })]) ∧
    (∀ (s : RelayState) (id : String) (cl : ClientConn) (msg : String),
       (s.clients.map Prod.fst).Nodup → (id, cl) ∈ s.clients → cl.sendFails = false →
       clientLog (broadcastStatusToClients s msg) id =
         clientLog s id ++ [WireData.text (jsonOfStatus
           { type := "status", message := msg, timestamp := toISOString s.now,
             isConnectedToSFU := s.isConnectedToSFU })]) ∧
    (∀ (s : RelayState) (id : String) (cl : ClientConn),
       s.heartbeatInterval.isSome = true →
       (s.clients.map Prod.fst).Nodup → (id, cl) ∈ s.clients → cl.sendFails = false →
       clientLog (step s Event.heartbeatTick) id =
         clientLog s id ++ [WireData.text (jsonOfStatus
           { type := "status", message := heartbeatMsg s, timestamp := toISOString s.now,
             isConnectedToSFU := s.isConnectedToSFU })]) := by
  refine ⟨isISO8601_toISOString, ?_, ?_, ?_⟩
  · intro s id cl msg hfind hfail
    unfold sendStatusToClient
    rw [hfind]
    dsimp only
    rw [hfail]
    simp only [Bool.false_eq_true, if_false]
    unfold clientLog
    rw [deliver_find_self, hfind]
    rfl
  · intro s id cl msg hnd hmem hfail
    exact clientLog_broadcast_mem s id cl msg hnd hmem hfail
  · intro s id cl hhb hnd hmem hfail
    unfold step
    rw [if_pos hhb]
    exact clientLog_broadcast_mem s id cl (heartbeatMsg s) hnd hmem hfail

set_option maxRecDepth 8192 in
theorem c9_status_wire_shape_witness :
    clientLog
      (broadcastStatusToClients
        (run (some "stream:alpha") none "d" 0 [Event.join "v1" false true, Event.sfuOpen])
        "hello") "v1" =
      clientLog (run (some "stream:alpha") none "d" 0
        [Event.join "v1" false true, Event.sfuOpen]) "v1" ++
      [WireData.text (jsonOfStatus
        { type := "status", message := "hello",
          timestamp := toISOString (run (some "stream:alpha") none "d" 0
            [Event.join "v1" false true, Event.sfuOpen]).now,
          isConnectedToSFU := (run (some "stream:alpha") none "d" 0
            [Event.join "v1" false true, Event.sfuOpen]).isConnectedToSFU })] :=
  c9_status_wire_shape.2.2.1
    (run (some "stream:alpha") none "d" 0 [Event.join "v1" false true, Event.sfuOpen])
    "v1" { sendFails := false,
           received := (clientLog (run (some "stream:alpha") none "d" 0
             [Event.join "v1" false true, Event.sfuOpen]) "v1") }
    "hello" (by decide) (by decide) (by decide)

theorem isEmpty_map {α β : Type} (f : α → β) (l : List α) :
    (l.map f).isEmpty = l.isEmpty := by
  cases l <;> rfl

theorem hbInv_hcd (s : RelayState) (id : String) (h : hbInv s) :
    hbInv (handleClientDisconnect s id) := by
  unfold hbInv at *
  rw [hcd_hb, hcd_clients]
  by_cases hl : (s.clients.filter (fun p => p.1 != id)).length = 0
  · rw [if_pos hl, List.length_eq_zero.mp hl]
    rfl
  · rw [if_neg hl]
    have hne : s.clients.filter (fun p => p.1 != id) ≠ [] :=
      fun h0 => hl (by rw [h0]; rfl)
    have hsne : s.clients ≠ [] := by
      intro h0
      exact hne (by rw [h0]; rfl)
    rw [h]
    cases hf : s.clients.filter (fun p => p.1 != id) with
    | nil => exact absurd hf hne
    | cons a t =>
      cases hs : s.clients with
      | nil => exact absurd hs hsne
      | cons b u => rfl

theorem hbInv_deliver (s : RelayState) (id : String) (d : WireData) (h : hbInv s) :
    hbInv (deliverTo s id d) := by
  unfold hbInv at *
  rw [deliver_clients, isEmpty_map]
  exact h

theorem hbInv_sendLoop (snap : List (String × ClientConn)) (s : RelayState) (d : WireData)
    (h : hbInv s) : hbInv (sendLoop s snap d) := by
  induction snap generalizing s with
  | nil => exact h
  | cons q t ih =>
    obtain ⟨qi, qc⟩ := q
    unfold sendLoop
    try dsimp only
    split
    · exact ih _ (hbInv_hcd s qi h)
    · exact ih _ (hbInv_deliver s qi _ h)

theorem hbInv_broadcast (s : RelayState) (msg : String) (h : hbInv s) :
    hbInv (broadcastStatusToClients s msg) :=
  hbInv_sendLoop s.clients s _ h

theorem hbInv_sched (s : RelayState) (h : hbInv s) : hbInv (scheduleReconnect s) := by
  unfold hbInv at *
  rw [sched_hb, sched_clients]
  exact h

theorem hbInv_clear (s : RelayState) (h : hbInv s) : hbInv (clearReconnect s) := by
  unfold hbInv at *
  rw [clear_hb, clear_clients]
  exact h

theorem hbInv_conn_true (s : RelayState) (h : hbInv s) : hbInv (connectToSFU s true) := by
  unfold hbInv at *
  rw [conn_hb_true, conn_clients_true]
  exact h

theorem hbInv_upstreamDown (s : RelayState) (msg : String) (h : hbInv s) :
    hbInv (upstreamDownHandler s msg) :=
  hbInv_sched _ (hbInv_broadcast _ _ h)

theorem clientsSet_ne_nil (cs : List (String × ClientConn)) (id : String) (c : ClientConn) :
    clientsSet cs id c ≠ [] := by
  unfold clientsSet
  split
  · rename_i hany
    cases cs with
    | nil => simp at hany
    | cons q t => simp
  · simp

theorem hbInv_sendStatus (s : RelayState) (id msg : String) (h : hbInv s) :
    hbInv (sendStatusToClient s id msg) := by
  unfold sendStatusToClient
  split
  · exact h
  · split
    · exact hbInv_hcd s id h
    · exact hbInv_deliver s id _ h

theorem hbInv_accept_tail_len1 (s2 : RelayState) (id : String)
    (hlen : s2.clients.length = 1) :
    hbInv (if s2.clients.length = 1 then startHeartbeat (connectToSFU s2 true)
      else
        if s2.isConnectedToSFU then
          match s2.codecDescription with
          | some c =>
            (match s2.clients.find? (fun p => p.1 == id) with
             | some p => if p.2.sendFails then s2 else deliverTo s2 id (.bin c)
             | none => s2)
          | none => s2
        else s2) := by
  rw [if_pos hlen]
  unfold hbInv startHeartbeat
  dsimp only
  rw [conn_clients_true]
  cases hc : s2.clients with
  | nil => rw [hc] at hlen; simp at hlen
  | cons a t => rfl

theorem hbInv_accept_tail (s2 : RelayState) (id : String) (h : hbInv s2) :
    hbInv (if s2.clients.length = 1 then startHeartbeat (connectToSFU s2 true)
      else
        if s2.isConnectedToSFU then
          match s2.codecDescription with
          | some c =>
            (match s2.clients.find? (fun p => p.1 == id) with
             | some p => if p.2.sendFails then s2 else deliverTo s2 id (.bin c)
             | none => s2)
          | none => s2
        else s2) := by
  split
  · rename_i hlen
    unfold hbInv startHeartbeat
    dsimp only
    rw [conn_clients_true]
    cases hc : s2.clients with
    | nil => rw [hc] at hlen; simp at hlen
    | cons a t => rfl
  · split
    · split
      · split
        · split
          · exact h
          · exact hbInv_deliver s2 id _ h
        · exact h
      · exact h
    · exact h

theorem sendStatus_fresh_append_fails (s : RelayState) (id : String) (msg : String)
    (y : ClientConn) (l : List (String × ClientConn))
    (hy : y.sendFails = true)
    (hc : s.clients = l ++ [(id, y)]) (h : ∀ p ∈ l, p.1 ≠ id) :
    sendStatusToClient s id msg = handleClientDisconnect s id := by
  unfold sendStatusToClient
  rw [hc, find?_key_append_fresh l id y h]
  dsimp only
  rw [hy]
  simp

theorem hbInv_accept (s : RelayState) (id : String) (doa : Bool) (h : hbInv s) :
    hbInv (acceptViewer s id doa true) := by
  unfold acceptViewer
  dsimp only
  by_cases hs : s.clients = []
  · cases doa with
    | false =>
      apply hbInv_accept_tail_len1 _ id
      rw [sendStatus_fresh_append _ id _ { sendFails := false, received := [] } []
        rfl (by rw [hs]; rfl) (by simp)]
      rw [deliver_clients_length]
      rw [hs]
      rfl
    | true =>
      apply hbInv_accept_tail _ id
      rw [sendStatus_fresh_append_fails _ id _ { sendFails := true, received := [] } []
        rfl (by rw [hs]; rfl) (by simp)]
      unfold hbInv
      rw [hcd_hb, hcd_clients]
      rw [hs]
      have hfe : (clientsSet [] id
          ({ sendFails := true, received := [] } : ClientConn)).filter
            (fun p => p.1 != id) = [] := by
        simp [clientsSet]
      rw [hfe]
      rfl
  · apply hbInv_accept_tail _ id
    apply hbInv_sendStatus
    unfold hbInv at h ⊢
    dsimp only
    have hne := clientsSet_ne_nil s.clients id { sendFails := doa, received := [] }
    cases hcs : clientsSet s.clients id { sendFails := doa, received := [] } with
    | nil => exact absurd hcs hne
    | cons a t =>
      cases hsc : s.clients with
      | nil => exact absurd hsc hs
      | cons b u =>
        rw [hsc] at h
        rw [h]
        rfl

theorem hbInv_step (s : RelayState) (e : Event) (hok : ctorOkEv e) (h : hbInv s) :
    hbInv (step s e) := by
  cases e with
  | join id doa ok =>
    have hok2 : ok = true := hok
    subst hok2
    exact hbInv_accept s id doa h
  | leave id => exact hbInv_hcd s id h
  | clientDies id =>
    rw [step]
    unfold hbInv at h ⊢
    dsimp only
    rw [isEmpty_map]
    exact h
  | sfuOpen =>
    rw [step]
    split
    · exact hbInv_broadcast _ _ h
    · exact h
  | sfuMessage bytes =>
    rw [step]
    split
    · unfold handleSfuMessage fanOutToClients
      dsimp only
      apply hbInv_sendLoop
      split
      · exact hbInv_broadcast _ _ h
      · exact h
    · exact h
  | sfuClose =>
    rw [step]
    split
    · exact hbInv_upstreamDown _ _ h
    · exact h
  | sfuError =>
    rw [step]
    split
    · exact hbInv_upstreamDown _ _ h
    · exact h
  | staleClose =>
    rw [step]
    split
    · exact hbInv_upstreamDown _ _ h
    · exact h
  | timerFire ok =>
    have hok2 : ok = true := hok
    subst hok2
    rw [step]
    split
    · exact hbInv_conn_true _ h
    · exact h
  | heartbeatTick =>
    rw [step]
    split
    · exact hbInv_broadcast _ _ h
    · exact h

theorem hbInv_foldl (l : List Event) (s : RelayState) (hs : hbInv s)
    (hok : ∀ e ∈ l, ctorOkEv e) : hbInv (l.foldl step s) := by
  induction l generalizing s with
  | nil => exact hs
  | cons e t ih =>
    exact ih _ (hbInv_step s e (hok e (by simp)) hs)
      (fun e2 he2 => hok e2 (by simp [he2]))

theorem hbInv_run (name sfuEnv : Option String) (sid : String) (now : Nat)
    (evs : List Event) (hok : ∀ e ∈ evs, ctorOkEv e) :
    hbInv (run name sfuEnv sid now evs) :=
  hbInv_foldl evs (initRelay name sfuEnv sid now) rfl hok

/-- Claim C4 counterexample: (a) a viewer B whose transport is dead on
arrival (its initial status send throws) joins while exactly one viewer A
is registered; B is removed during the initial status send, the registry
size is back to 1, the code re-enters the "first client" branch and
`startHeartbeat` replaces the armed interval (handle 0 becomes handle 1) —
a restart caused by a join while already armed, at an event that is not an
empty-to-non-empty transition; (b) worse, if additionally A's transport has
died and the upstream socket constructor throws, the failure broadcast
empties the registry and the unconditional `startHeartbeat` that follows
leaves the heartbeat armed with zero viewers, breaking the claimed
`heartbeatArmed == (registrySize > 0)` invariant itself. -/
theorem c4_heartbeat_counterexample :
    ((run (some "stream:alpha") none "d" 0
        [Event.join "A" false true]).heartbeatInterval = some 0 ∧
     (run (some "stream:alpha") none "d" 0
        [Event.join "A" false true]).clients.length = 1) ∧
    ((run (some "stream:alpha") none "d" 0
        [Event.join "A" false true, Event.join "B" true true]).heartbeatInterval = some 1 ∧
     (run (some "stream:alpha") none "d" 0
        [Event.join "A" false true, Event.join "B" true true]).clients.length = 1) ∧
    ((run (some "stream:alpha") none "d" 0
        [Event.join "A" false true, Event.clientDies "A",
         Event.join "B" true false]).heartbeatInterval.isSome = true ∧
     (run (some "stream:alpha") none "d" 0
        [Event.join "A" false true, Event.clientDies "A",
         Event.join "B" true false]).clients = []) := by
  decide

/-- Claim C4 (amended): (1) for every event sequence in which each upstream
socket construction returns normally (`ctorOkEv`), the invariant
`heartbeatArmed == (registry non-empty)` holds after each event settles —
viewer joins and leaves, dead transports, upstream opens/messages/
closes/errors, stale-socket events, timer firings and heartbeat ticks all
included; (2) a join by a fresh viewer whose initial status send succeeds
while the registry is non-empty leaves the heartbeat handle untouched (no
restart); (3) a disconnect clears the heartbeat exactly when the registry
became empty and leaves the handle untouched otherwise; (4) a join into an
empty registry by a live transport arms the heartbeat.  The claim fails as
stated only in the counterexample's corner cases: a join whose initial
status send throws while exactly one other viewer is registered restarts
the heartbeat, and a synchronous constructor throw whose failure broadcast
empties the registry leaves the heartbeat armed with no viewers. -/
theorem c4_heartbeat_amended :
    (∀ (name sfuEnv : Option String) (sid : String) (now : Nat) (evs : List Event),
       (∀ e ∈ evs, ctorOkEv e) → hbInv (run name sfuEnv sid now evs)) ∧
    (∀ (s : RelayState) (id : String) (ok : Bool), s.clients ≠ [] →
       (∀ p ∈ s.clients, p.1 ≠ id) →
       (acceptViewer s id false ok).heartbeatInterval = s.heartbeatInterval) ∧
    (∀ (s : RelayState) (id : String),
       ((handleClientDisconnect s id).clients = [] →
          (handleClientDisconnect s id).heartbeatInterval = none) ∧
       ((handleClientDisconnect s id).clients ≠ [] →
          (handleClientDisconnect s id).heartbeatInterval = s.heartbeatInterval)) ∧
    (∀ (s : RelayState) (id : String) (ok : Bool), s.clients = [] →
       (acceptViewer s id false ok).heartbeatInterval.isSome = true) := by
  refine ⟨hbInv_run, ?_, ?_, ?_⟩
  · intro s id ok hne hfresh
    unfold acceptViewer
    dsimp only
    rw [clientsSet_append_of_fresh _ _ _ hfresh]
    rw [sendStatus_fresh_append _ id _ { sendFails := false, received := [] } s.clients
      rfl rfl hfresh]
    rw [deliver_clients_length]
    dsimp only
    have hlen : (s.clients ++ [(id, ({ sendFails := false, received := [] } : ClientConn))]).length ≠ 1 := by
      simp [List.length_eq_zero]
      exact hne
    rw [if_neg hlen]
    split
    · split
      · split
        · split
          · rfl
          · rfl
        · rfl
      · rfl
    · rfl
  · intro s id
    constructor
    · intro h0
      rw [hcd_clients] at h0
      rw [hcd_hb, if_pos (by rw [h0]; rfl)]
    · intro hne
      rw [hcd_clients] at hne
      rw [hcd_hb, if_neg (fun hl => hne (List.length_eq_zero.mp hl))]
  · intro s id ok hs
    unfold acceptViewer
    dsimp only
    rw [sendStatus_fresh_append _ id _ { sendFails := false, received := [] } []
      rfl (by rw [hs]; rfl) (by simp)]
    rw [if_pos (by rw [deliver_clients_length, hs]; rfl)]
    rfl

theorem c4_heartbeat_amended_witness :
    hbInv (run (some "stream:alpha") none "d" 0
      [Event.join "A" false true, Event.sfuOpen]) ∧
    (acceptViewer (run (some "stream:alpha") none "d" 0
        [Event.join "A" false true, Event.sfuOpen]) "B" false true).heartbeatInterval =
      (run (some "stream:alpha") none "d" 0
        [Event.join "A" false true, Event.sfuOpen]).heartbeatInterval :=
  ⟨c4_heartbeat_amended.1 (some "stream:alpha") none "d" 0
      [Event.join "A" false true, Event.sfuOpen] (by decide),
   c4_heartbeat_amended.2.1 _ "B" true (by decide) (by decide)⟩
